import Mathlib

/-!
Verification of the 6-layer violation scanner
(`scripts/detect_6layer_violations.py`).

Lines are modelled as `List Char`.  Regular-expression patterns are
modelled as matcher functions `List Char → List Nat` returning the start
positions of the (non-overlapping) matches, in left-to-right order, as
`re.finditer` produces them; `re.search` succeeds exactly when this list
is non-empty and its match is the head.  For the word-boundary patterns
of the rule catalog, concrete matchers are defined below.
-/

namespace SixLayer

/-- The fixed placeholder literal the string stripper emits. -/
def placeholder : List Char := "\"STRING_LITERAL\"".data

/--
Core loop of `strip_comments_from_line`.  State: `instr` (inside a
string literal), `sq` (the opening quote character when inside one) and
`m` (inside a multi-line comment).  Faithful to the Python loop,
including the fact that the string-literal check does not test `m`, so a
quote inside a block comment still enters (and emits) string state.
The one- and two-character cases are split so that the `next_char`
lookahead is available as `d`; on the final character the lookahead is
`None`, so no two-character branch can fire and the character is either
emitted (code or string state) or dropped (comment state).
-/
def scGo (instr : Bool) (sq : Option Char) (m : Bool) : List Char → List Char × Bool
  | [] => ([], m)
  | [c] =>
    if instr = false && (c == '"' || c == '\'') then ([c], m)
    else if instr then ([c], m)
    else if m then ([], m)
    else ([c], m)
  | c :: d :: rest =>
    if instr = false && (c == '"' || c == '\'') then
      let r := scGo true (some c) m (d :: rest)
      (c :: r.1, r.2)
    else if instr then
      if c == '\\' then
        let r := scGo true sq m rest
        ('\\' :: d :: r.1, r.2)
      else if some c == sq then
        let r := scGo false none m (d :: rest)
        (c :: r.1, r.2)
      else
        let r := scGo true sq m (d :: rest)
        (c :: r.1, r.2)
    else if m then
      if c == '*' && d == '/' then scGo false sq false rest
      else scGo false sq true (d :: rest)
    else
      if c == '/' && d == '*' then scGo false sq true rest
      else if c == '/' && d == '/' then ([], false)
      else
        let r := scGo false sq false (d :: rest)
        (c :: r.1, r.2)

/-- Model of `strip_comments_from_line`: strip comments from one line,
carrying the in-block-comment flag. -/
def strip_comments_from_line (line : List Char) (m : Bool) : List Char × Bool :=
  scGo false none m line

/-- Loop of `strip_comments_from_lines`, threading the block-comment flag. -/
def sclsGo : List (List Char) → Bool → List (List Char)
  | [], _ => []
  | l :: ls, m =>
    let r := strip_comments_from_line l m
    r.1 :: sclsGo ls r.2

/-- Model of `strip_comments_from_lines`: strip comments from all lines. -/
def strip_comments_from_lines (lines : List (List Char)) : List (List Char) :=
  sclsGo lines false

/--
Core loop of `strip_string_literals_from_line`.  In the skip state the
Python code reuses a `next_char` variable that is refreshed only by the
escape branch; only its truthiness is ever consulted, so it is modelled
as the `Bool` component of the `Option (Char × Bool)` state.  On the
final character the skip state emits nothing and ends, matching the
index arithmetic of the Python loop.
-/
def sslGo (st : Option (Char × Bool)) : List Char → List Char
  | [] => []
  | [c] =>
    match st with
    | none => if c == '"' || c == '\'' then placeholder else [c]
    | some _ => []
  | c :: d :: rest =>
    match st with
    | none =>
      if c == '"' || c == '\'' then
        placeholder ++ sslGo (some (c, true)) (d :: rest)
      else
        c :: sslGo none (d :: rest)
    | some (q, stale) =>
      if c == '\\' && stale then
        sslGo (some (q, decide (2 ≤ rest.length))) rest
      else if c == q then sslGo none (d :: rest)
      else sslGo (some (q, stale)) (d :: rest)

/-- Model of `strip_string_literals_from_line`. -/
def strip_string_literals_from_line (line : List Char) : List Char :=
  sslGo none line

/-- Model of `strip_string_literals_from_lines`: stateless per-line map. -/
def strip_string_literals_from_lines (lines : List (List Char)) : List (List Char) :=
  lines.map strip_string_literals_from_line

/-- Python `str.strip()` on a line of characters. -/
def trimChars (l : List Char) : List Char :=
  ((l.dropWhile Char.isWhitespace).reverse.dropWhile Char.isWhitespace).reverse

/-- Python `str.rstrip()` on a line of characters. -/
def rstripChars (l : List Char) : List Char :=
  (l.reverse.dropWhile Char.isWhitespace).reverse

/-- The characters after the first occurrence of `pat` in `l`
(`l.split(pat, 1)[1]` when `pat in l`), `none` when `pat` does not occur. -/
def afterFirst (pat : List Char) : List Char → Option (List Char)
  | [] => none
  | c :: rest =>
    if pat.isPrefixOf (c :: rest) then some ((c :: rest).drop pat.length)
    else afterFirst pat rest

/-- Python substring containment `pat in l` (for non-empty `pat`). -/
def containsSub (pat l : List Char) : Bool :=
  (afterFirst pat l).isSome

/-- The exception marker. -/
def marker : List Char := "// 6LAYER_ALLOW:".data

/--
Model of `get_exception_reason`: the justification text when line `idx` (0-based)
carries the marker anywhere in its trimmed text, or when the previous
line, trimmed, starts with the marker; the empty list otherwise.
-/
def get_exception_reason (lines : List (List Char)) (idx : Nat) : List Char :=
  if idx < lines.length then
    match afterFirst marker (trimChars (lines.getD idx [])) with
    | some aft => trimChars aft
    | none =>
      if marker.isPrefixOf
          (if 0 < idx then trimChars (lines.getD (idx - 1) []) else []) then
        match afterFirst marker
            (if 0 < idx then trimChars (lines.getD (idx - 1) []) else []) with
        | some aft => trimChars aft
        | none => []
      else []
  else []

/-! ### Pattern matchers

Concrete matchers realising the regular expressions of the rule catalog:
tier-1 patterns have the shape `\bTOK\b`, tier-2 primary patterns the
shape `\bTOK\s*(` or `\bTOK\s*{`, and tier-2 suppression patterns the
shape `TOK\s*(`.  For these shapes no two boundary-valid occurrences can
overlap, so `re.finditer` returns exactly the occurrence positions in
increasing order.
-/

/-- Python `\w` on the relevant ASCII alphabet. -/
def isWordChar (c : Char) : Bool := c.isAlphanum || c == '_'

/-- Whether position `p` of `s` holds a word character. -/
def wordAt (s : List Char) (p : Nat) : Bool :=
  match s.drop p with
  | [] => false
  | c :: _ => isWordChar c

/-- Match positions of `\bTOK\b` in `s` (for a token of word characters). -/
def wbMatches (tok : List Char) (s : List Char) : List Nat :=
  (List.range s.length).filter (fun p =>
    tok.isPrefixOf (s.drop p) &&
    (p == 0 || !wordAt s (p - 1)) &&
    !wordAt s (p + tok.length))

/-- Match positions of `\bTOK\s*C` in `s`, where `C` is `(` or `{`. -/
def t2Matches (tok : List Char) (close : Char) (s : List Char) : List Nat :=
  (List.range s.length).filter (fun p =>
    tok.isPrefixOf (s.drop p) &&
    (p == 0 || !wordAt s (p - 1)) &&
    ((s.drop (p + tok.length)).dropWhile Char.isWhitespace).head? == some close)

/-- Match positions of `TOK\s*C` in `s` (no word boundary). -/
def subThenMatches (tok : List Char) (close : Char) (s : List Char) : List Nat :=
  (List.range s.length).filter (fun p =>
    tok.isPrefixOf (s.drop p) &&
    ((s.drop (p + tok.length)).dropWhile Char.isWhitespace).head? == some close)

/-- Occurrence positions of a plain substring `tok` in `s`. -/
def subMatches (tok : List Char) (s : List Char) : List Nat :=
  (List.range s.length).filter (fun p => tok.isPrefixOf (s.drop p))

/-! ### Data model -/

/-- The `Violation` dataclass (a Finding). -/
structure Violation where
  file_path : List Char
  line_number : Nat
  line_content : List Char
  violation_type : List Char
  replacement : List Char
  hint : List Char
  priority : Nat
  column : Nat := 0
  is_exception : Bool := false
  exception_reason : List Char := []
deriving DecidableEq, Repr

/-- The `AllowedException` dataclass. -/
structure AllowedException where
  file_path : List Char
  line_number : Nat
  line_content : List Char
  violation_type : List Char
  reason : List Char
deriving DecidableEq, Repr

/-- The `Exclusion` dataclass. -/
structure Exclusion where
  file_path : List Char
  reason : List Char
deriving DecidableEq, Repr

/--
A rule-catalog entry.  The optional dictionary fields of the Python
tables are explicit: `excludePatterns` defaults to the empty list,
`contextPattern`/`requiresContext` to absent/false, and
`excludeInFramework` to false, exactly as `violation_info.get` does.
Patterns are matcher functions (see above).
-/
structure Rule where
  name : List Char
  replacement : List Char
  hint : List Char
  priority : Nat
  pattern : List Char → List Nat
  excludePatterns : List (List Char → List Nat) := []
  contextPattern : Option (List Char → List Nat) := none
  requiresContext : Bool := false
  excludeInFramework : Bool := false

/-! ### File classifier -/

/-- The final path component (after the last `/`). -/
def lastComponent (fp : List Char) : List Char :=
  (fp.reverse.takeWhile (fun c => c != '/')).reverse

/-- Model of `pathlib.Path(...).suffix` for ordinary file names: the extension
from the last dot of the final component, empty when the only dot is
leading. -/
def pathSuffix (fp : List Char) : List Char :=
  let nm := lastComponent fp
  let ext := nm.reverse.takeWhile (fun c => c != '.')
  if ext.length + 1 < nm.length then '.' :: ext.reverse else []

/-- Model of `is_app_code_with_reason`: whether the file is in scope, plus the
categorical exclusion reason, in the source's priority order. -/
def is_app_code_with_reason (fp : List Char) (excludeFramework excludeTests : Bool) :
    Bool × List Char :=
  if containsSub ".build".data fp || containsSub ".build-clean".data fp then
    (false, "build directory".data)
  else if containsSub "DerivedData".data fp then (false, "DerivedData directory".data)
  else if containsSub "Pods/".data fp then (false, "Pods directory".data)
  else if containsSub "Carthage/".data fp then (false, "Carthage directory".data)
  else if containsSub ".swiftpm/".data fp then
    (false, "Swift Package Manager directory".data)
  else if excludeFramework && containsSub "Framework/".data fp then
    (false, "framework code".data)
  else if excludeFramework && containsSub "Development/scripts/".data fp then
    (false, "script file".data)
  else if excludeFramework && containsSub "scripts/".data fp then
    (false, "script file".data)
  else if excludeTests && containsSub "Development/Tests/".data fp then
    (false, "test code".data)
  else if !(pathSuffix fp == ".swift".data) then (false, "not a Swift file".data)
  else (true, [])

/-! ### Rule engine -/

/--
Processing of one candidate line by one tier-1 rule: primary-pattern
search, then exception check, then suppression check, then one Finding
per `finditer` match at the match's 1-based column.
-/
def checkLineT1 (fp : List Char) (r : Rule) (lines : List (List Char))
    (lineNum : Nat) (orig clean : List Char) :
    List Violation × List AllowedException :=
  if (r.pattern clean).isEmpty then ([], [])
  else
    let reason := get_exception_reason lines (lineNum - 1)
    if reason ≠ [] then
      ([], [{ file_path := fp, line_number := lineNum,
              line_content := rstripChars orig,
              violation_type := r.name, reason := reason }])
    else if r.excludePatterns.any (fun mp => !(mp clean).isEmpty) then ([], [])
    else
      ((r.pattern clean).map (fun p =>
        { file_path := fp, line_number := lineNum,
          line_content := rstripChars orig, violation_type := r.name,
          replacement := r.replacement, hint := r.hint,
          priority := r.priority, column := p + 1 }), [])

/-- The joined slice of comment-stripped lines searched for a tier-2
rule's required context around 1-based line `lineNum`. -/
def contextWindow (linesWC : List (List Char)) (lineNum : Nat) : List Char :=
  ((linesWC.take (min linesWC.length (lineNum + 10))).drop (lineNum - 10)).flatten

/-- The boolean value of the tier-2 required-context gate: when the rule
declares `requires_context` together with a context pattern, whether the
pattern matches the joined window of comment-stripped lines. -/
def contextOK (r : Rule) (linesWC : List (List Char)) (lineNum : Nat) : Bool :=
  if r.requiresContext then
    match r.contextPattern with
    | some cp => !(cp (contextWindow linesWC lineNum)).isEmpty
    | none => true
  else true

/--
Processing of one candidate line by one tier-2 rule: primary-pattern
search, exception check, suppression check, optional required-context
check against the comment-stripped (string-unstripped) window, then a
single Finding at the first match's 1-based column.
-/
def checkLineT2 (fp : List Char) (r : Rule) (lines linesWC : List (List Char))
    (lineNum : Nat) (orig clean : List Char) :
    List Violation × List AllowedException :=
  if (r.pattern clean).isEmpty then ([], [])
  else
    let reason := get_exception_reason lines (lineNum - 1)
    if reason ≠ [] then
      ([], [{ file_path := fp, line_number := lineNum,
              line_content := rstripChars orig,
              violation_type := r.name, reason := reason }])
    else if r.excludePatterns.any (fun mp => !(mp clean).isEmpty) then ([], [])
    else
      if !(contextOK r linesWC lineNum) then ([], [])
      else
        match r.pattern clean with
        | [] => ([], [])
        | p :: _ =>
          ([{ file_path := fp, line_number := lineNum,
              line_content := rstripChars orig, violation_type := r.name,
              replacement := r.replacement, hint := r.hint,
              priority := r.priority, column := p + 1 }], [])

/-- Tier-1 per-line loop for one rule over `zip lines lines_without_strings`,
with 1-based line numbers. -/
def goT1 (fp : List Char) (r : Rule) (lines : List (List Char)) :
    List (List Char × List Char) → Nat → List Violation × List AllowedException
  | [], _ => ([], [])
  | (o, cl) :: rest, n =>
    let h := checkLineT1 fp r lines n o cl
    let t := goT1 fp r lines rest (n + 1)
    (h.1 ++ t.1, h.2 ++ t.2)

/-- Tier-2 per-line loop for one rule. -/
def goT2 (fp : List Char) (r : Rule) (lines linesWC : List (List Char)) :
    List (List Char × List Char) → Nat → List Violation × List AllowedException
  | [], _ => ([], [])
  | (o, cl) :: rest, n =>
    let h := checkLineT2 fp r lines linesWC n o cl
    let t := goT2 fp r lines linesWC rest (n + 1)
    (h.1 ++ t.1, h.2 ++ t.2)

/-- One tier-1 rule over a whole file. -/
def runRuleT1 (fp : List Char) (r : Rule) (lines cleans : List (List Char)) :
    List Violation × List AllowedException :=
  goT1 fp r lines (lines.zip cleans) 1

/-- One tier-2 rule over a whole file, with the rule-level framework
skip applied before any per-line processing, as in the source. -/
def runRuleT2 (fp : List Char) (r : Rule) (lines linesWC cleans : List (List Char)) :
    List Violation × List AllowedException :=
  if r.excludeInFramework && containsSub "Framework/".data fp then ([], [])
  else goT2 fp r lines linesWC (lines.zip cleans) 1

/-- Fold a list of per-rule results into one pair, in rule order. -/
def concatPairs (ps : List (List Violation × List AllowedException)) :
    List Violation × List AllowedException :=
  ps.foldr (fun h t => (h.1 ++ t.1, h.2 ++ t.2)) ([], [])

/--
Model of `find_violations_in_file`: `content` is `none` when the file cannot be
read (the `except` branch: a warning is printed and the empty result
triple is returned).  The rule catalogs are passed explicitly.
-/
def find_violations_in_file (t1Rules t2Rules : List Rule) (fp : List Char)
    (content : Option (List (List Char))) (excludeFramework excludeTests : Bool) :
    List Violation × List Exclusion × List AllowedException :=
  let ir := is_app_code_with_reason fp excludeFramework excludeTests
  if !ir.1 then ([], [{ file_path := fp, reason := ir.2 }], [])
  else
    match content with
    | none => ([], [], [])
    | some lines =>
      let linesWC := strip_comments_from_lines lines
      let linesWS := strip_string_literals_from_lines linesWC
      let r1 := concatPairs (t1Rules.map (fun r => runRuleT1 fp r lines linesWS))
      let r2 := concatPairs (t2Rules.map (fun r => runRuleT2 fp r lines linesWC linesWS))
      (r1.1 ++ r2.1, [], r1.2 ++ r2.2)

/--
Model of `scan_directory` over an explicit list of (path, contents) pairs:
per-file results are concatenated in encounter order; a file's read
failure is represented by `none` contents.
-/
def scan_directory (t1Rules t2Rules : List Rule)
    (files : List (List Char × Option (List (List Char))))
    (excludeFramework excludeTests : Bool) :
    List Violation × List Exclusion × List AllowedException :=
  files.foldr
    (fun f acc =>
      let r := find_violations_in_file t1Rules t2Rules f.1 f.2 excludeFramework excludeTests
      (r.1 ++ acc.1, r.2.1 ++ acc.2.1, r.2.2 ++ acc.2.2))
    ([], [], [])

/-! ### Catalog entries used in the concrete theorems -/

/-- The `NSColor` entry of `PLATFORM_TYPE_VIOLATIONS`. -/
def nscolorRule : Rule :=
  { name := "NSColor".data
    replacement := "Color.platform*".data
    hint := "Use Color.platformBackground, Color.platformLabel, etc. instead of NSColor".data
    priority := 1
    pattern := wbMatches "NSColor".data }

/-- The `UIColor` entry of `PLATFORM_TYPE_VIOLATIONS`. -/
def uicolorRule : Rule :=
  { name := "UIColor".data
    replacement := "Color.platform*".data
    hint := "Use Color.platformBackground, Color.platformLabel, etc. instead of UIColor".data
    priority := 1
    pattern := wbMatches "UIColor".data }

/-- The `TextField without platform replacement` entry of `VIEW_VIOLATIONS`. -/
def textFieldRule : Rule :=
  { name := "TextField without platform replacement".data
    replacement := "platformTextField() or platformPresentFormData_L1()".data
    hint := "Use platformTextField() (drop-in replacement) or platformPresentFormData_L1() instead of TextField".data
    priority := 2
    pattern := t2Matches "TextField".data '('
    excludePatterns := [subThenMatches "platformTextField".data '(',
                        subThenMatches "platformPresentFormData_L1".data '(']
    excludeInFramework := true }

/-- The tier-1 catalog subset used by the concrete theorems below. -/
def t1Catalog : List Rule := [nscolorRule, uicolorRule]

/-- The tier-2 catalog subset used by the concrete theorems below. -/
def t2Catalog : List Rule := [textFieldRule]

/-- A tier-2 rule carrying a required-context declaration, of the shape
the engine supports (`requires_context` plus `context_pattern`); used to
exercise the context-window resolution step. -/
def ctxRule : Rule :=
  { name := "ctx demo".data
    replacement := "r".data
    hint := "h".data
    priority := 2
    pattern := t2Matches "VStack".data '\x7b'
    requiresContext := true
    contextPattern := some (subMatches "List".data) }

/-- A 21-line file whose only candidate match is on 1-based line 11 and
whose only context occurrence is exactly 10 lines above the match. -/
def ctxLinesAbove : List (List Char) :=
  ["List".data] ++ List.replicate 9 "x".data ++ ["VStack \x7b".data] ++
    List.replicate 10 "x".data

/-- A 21-line file whose only candidate match is on 1-based line 11 and
whose only context occurrence is exactly 10 lines below the match. -/
def ctxLinesBelow : List (List Char) :=
  ["x".data] ++ List.replicate 9 "x".data ++ ["VStack \x7b".data] ++
    List.replicate 9 "x".data ++ ["List".data]

/-! ## Step equations for the scanning loops -/

theorem scGo_nil (instr : Bool) (sq : Option Char) (m : Bool) :
    scGo instr sq m [] = ([], m) := rfl

theorem scGo_code_quote (sq : Option Char) (m : Bool) (c : Char) (rest : List Char)
    (h : c = '"' ∨ c = '\'') :
    scGo false sq m (c :: rest) =
      (c :: (scGo true (some c) m rest).1, (scGo true (some c) m rest).2) := by
  rcases h with h | h <;> subst h <;> cases rest <;> simp [scGo]

theorem scGo_str_esc (sq : Option Char) (m : Bool) (d : Char) (rest : List Char) :
    scGo true sq m ('\\' :: d :: rest) =
      ('\\' :: d :: (scGo true sq m rest).1, (scGo true sq m rest).2) := by
  simp [scGo]

theorem scGo_str_close (m : Bool) (c : Char) (rest : List Char) (hc : c ≠ '\\') :
    scGo true (some c) m (c :: rest) =
      (c :: (scGo false none m rest).1, (scGo false none m rest).2) := by
  cases rest <;> simp [scGo, hc]

theorem scGo_str_chr (sq : Option Char) (m : Bool) (c : Char) (rest : List Char)
    (h1 : c ≠ '\\') (h2 : some c ≠ sq) :
    scGo true sq m (c :: rest) =
      (c :: (scGo true sq m rest).1, (scGo true sq m rest).2) := by
  cases rest <;> simp [scGo, h1, h2]

theorem scGo_cmt_close (sq : Option Char) (rest : List Char) :
    scGo false sq true ('*' :: '/' :: rest) = scGo false sq false rest := by
  simp [scGo]

theorem scGo_cmt_skip (sq : Option Char) (c : Char) (rest : List Char)
    (h1 : ¬(c = '"' ∨ c = '\'')) (h2 : ¬(c = '*' ∧ rest.head? = some '/')) :
    scGo false sq true (c :: rest) = scGo false sq true rest := by
  push_neg at h1
  cases rest with
  | nil => simp [scGo, h1.1, h1.2]
  | cons d ys =>
    by_cases hc : c = '*'
    · subst hc
      have hd : d ≠ '/' := by
        intro hd
        exact h2 ⟨rfl, by simp [hd]⟩
      simp [scGo, h1.1, h1.2, hd]
    · simp [scGo, h1.1, h1.2, hc]

theorem scGo_code_open (sq : Option Char) (rest : List Char) :
    scGo false sq false ('/' :: '*' :: rest) = scGo false sq true rest := by
  simp [scGo]

theorem scGo_code_linecmt (sq : Option Char) (rest : List Char) :
    scGo false sq false ('/' :: '/' :: rest) = ([], false) := by
  simp [scGo]

theorem scGo_code_emit (sq : Option Char) (c : Char) (rest : List Char)
    (h1 : ¬(c = '"' ∨ c = '\''))
    (h2 : ¬(c = '/' ∧ (rest.head? = some '*' ∨ rest.head? = some '/'))) :
    scGo false sq false (c :: rest) =
      (c :: (scGo false sq false rest).1, (scGo false sq false rest).2) := by
  push_neg at h1
  cases rest with
  | nil => simp [scGo, h1.1, h1.2]
  | cons d ys =>
    by_cases hc : c = '/'
    · subst hc
      have hd1 : d ≠ '*' := by
        intro hd; exact (h2 ⟨rfl, Or.inl (by simp [hd])⟩)
      have hd2 : d ≠ '/' := by
        intro hd; exact (h2 ⟨rfl, Or.inr (by simp [hd])⟩)
      simp [scGo, h1.1, h1.2, hd1, hd2]
    · simp [scGo, h1.1, h1.2, hc]

theorem sslGo_nil (st : Option (Char × Bool)) : sslGo st [] = [] := rfl

theorem sslGo_cons_quote (c : Char) (rest : List Char) (h : c = '"' ∨ c = '\'') :
    sslGo none (c :: rest) = placeholder ++ sslGo (some (c, !rest.isEmpty)) rest := by
  rcases h with h | h <;> subst h <;> cases rest <;> simp [sslGo]

theorem sslGo_cons_chr (c : Char) (rest : List Char) (h : ¬(c = '"' ∨ c = '\'')) :
    sslGo none (c :: rest) = c :: sslGo none rest := by
  push_neg at h
  cases rest <;> simp [sslGo, h.1, h.2]

theorem sslGo_skip_esc (q : Char) (d : Char) (rest : List Char) :
    sslGo (some (q, true)) ('\\' :: d :: rest) =
      sslGo (some (q, decide (2 ≤ rest.length))) rest := by
  simp [sslGo]

theorem sslGo_skip_close (q : Char) (b : Bool) (rest : List Char) (hq : q ≠ '\\') :
    sslGo (some (q, b)) (q :: rest) = sslGo none rest := by
  cases rest <;> simp [sslGo, hq]

theorem sslGo_skip_chr (q c : Char) (b : Bool) (rest : List Char)
    (h1 : c ≠ '\\') (h2 : c ≠ q) :
    sslGo (some (q, b)) (c :: rest) = sslGo (some (q, b)) rest := by
  cases rest <;> simp [sslGo, h1, h2]

/-- Traversal of escape-free, end-quote-free characters inside a string
literal by the comment stripper: they are emitted verbatim. -/
theorem scStrChars (sq : Char) (m : Bool) (a t : List Char)
    (ha : ∀ x ∈ a, x ≠ '\\' ∧ x ≠ sq) :
    scGo true (some sq) m (a ++ t) =
      (a ++ (scGo true (some sq) m t).1, (scGo true (some sq) m t).2) := by
  induction a with
  | nil => simp
  | cons x a' ih =>
    have hx := ha x (by simp)
    have hrec := ih (fun y hy => ha y (by simp [hy]))
    rw [List.cons_append, scGo_str_chr (some sq) m x (a' ++ t) hx.1 (by simp [hx.2]), hrec]
    simp

/-- Traversal of escape-free, quote-free characters by the string
stripper's skip loop: they are consumed and the state is unchanged. -/
theorem sslSkipChars (q : Char) (b : Bool) (a t : List Char)
    (ha : ∀ x ∈ a, x ≠ '\\' ∧ x ≠ q) :
    sslGo (some (q, b)) (a ++ t) = sslGo (some (q, b)) t := by
  induction a with
  | nil => simp
  | cons x a' ih =>
    have hx := ha x (by simp)
    rw [List.cons_append, sslGo_skip_chr q x b (a' ++ t) hx.1 hx.2]
    exact ih (fun y hy => ha y (by simp [hy]))

/-! ## Shape invariants for stripped lines

`CS` describes the possible outputs of the comment stripper (started in
any state): code characters never form `//` or `/*`, and every quote
character opens a string-literal segment (`InStr`) that either closes on
an unescaped occurrence of its opening quote or runs to the end of the
line, with escape pairs kept atomic.  `CFree` describes the outputs of
the string stripper on such lines: quote characters occur only as the
delimiters of the fixed placeholder. -/

mutual

inductive CS : List Char → Prop
  | nil : CS []
  | chr (c : Char) (rest : List Char) :
      c ≠ '"' → c ≠ '\'' → c ≠ '/' → CS rest → CS (c :: rest)
  | slash (rest : List Char) :
      rest.head? ≠ some '/' → rest.head? ≠ some '*' → CS rest → CS ('/' :: rest)
  | str (q : Char) (rest : List Char) :
      (q = '"' ∨ q = '\'') → InStr q rest → CS (q :: rest)

inductive InStr : Char → List Char → Prop
  | nil (q : Char) : InStr q []
  | bs (q : Char) : InStr q ['\\']
  | esc (q c : Char) (rest : List Char) : InStr q rest → InStr q ('\\' :: c :: rest)
  | chr (q c : Char) (rest : List Char) :
      c ≠ q → c ≠ '\\' → InStr q rest → InStr q (c :: rest)
  | close (q : Char) (rest : List Char) : CS rest → InStr q (q :: rest)

end

inductive CFree : List Char → Prop
  | nil : CFree []
  | chr (c : Char) (rest : List Char) :
      c ≠ '"' → c ≠ '\'' → c ≠ '/' → CFree rest → CFree (c :: rest)
  | slash (rest : List Char) :
      rest.head? ≠ some '/' → rest.head? ≠ some '*' → CFree rest → CFree ('/' :: rest)
  | ph (rest : List Char) : CFree rest → CFree (placeholder ++ rest)

/-- The first character emitted by the code-state stripper is the first
input character whenever that character opens neither comment form. -/
theorem scGo_code_head (rest : List Char)
    (h1 : rest.head? ≠ some '/') (h2 : rest.head? ≠ some '*') :
    (scGo false none false rest).1.head? = rest.head? := by
  cases rest with
  | nil => rfl
  | cons d ys =>
    have hd1 : d ≠ '/' := by intro h; exact h1 (by simp [h])
    have hd2 : d ≠ '*' := by intro h; exact h2 (by simp [h])
    by_cases hq : d = '"' ∨ d = '\''
    · rw [scGo_code_quote none false d ys hq]; rfl
    · rw [scGo_code_emit none d ys hq (by intro h; exact hd1 h.1)]; rfl

/-- Every output of the comment stripper satisfies `CS` (code entry
state) respectively `InStr` (in-string entry state). -/
theorem csAux : ∀ (n : Nat) (l : List Char), l.length ≤ n →
    (∀ m, CS (scGo false none m l).1) ∧
    (∀ q m, InStr q (scGo true (some q) m l).1) := by
  intro n
  induction n with
  | zero =>
    intro l hl
    have : l = [] := List.length_eq_zero.mp (Nat.le_zero.mp hl)
    subst this
    exact ⟨fun m => CS.nil, fun q m => InStr.nil q⟩
  | succ n ih =>
    intro l hl
    cases l with
    | nil => exact ⟨fun m => CS.nil, fun q m => InStr.nil q⟩
    | cons c rest =>
      have hrest : rest.length ≤ n := by simpa using Nat.succ_le_succ_iff.mp hl
      constructor
      · intro m
        by_cases hq : c = '"' ∨ c = '\''
        · rw [scGo_code_quote none m c rest hq]
          exact CS.str c _ hq ((ih rest hrest).2 c m)
        · cases m with
          | true =>
            by_cases hcl : c = '*' ∧ rest.head? = some '/'
            · obtain ⟨hc, hd⟩ := hcl
              subst hc
              cases rest with
              | nil => simp at hd
              | cons d ys =>
                have : d = '/' := by simpa using hd
                subst this
                rw [scGo_cmt_close none ys]
                exact (ih ys (by simp at hrest; omega)).1 false
            · rw [scGo_cmt_skip none c rest hq hcl]
              exact (ih rest hrest).1 true
          | false =>
            by_cases hop : c = '/' ∧ rest.head? = some '*'
            · obtain ⟨hc, hd⟩ := hop
              subst hc
              cases rest with
              | nil => simp at hd
              | cons d ys =>
                have : d = '*' := by simpa using hd
                subst this
                rw [scGo_code_open none ys]
                exact (ih ys (by simp at hrest; omega)).1 true
            · by_cases hlc : c = '/' ∧ rest.head? = some '/'
              · obtain ⟨hc, hd⟩ := hlc
                subst hc
                cases rest with
                | nil => simp at hd
                | cons d ys =>
                  have : d = '/' := by simpa using hd
                  subst this
                  rw [scGo_code_linecmt none ys]
                  exact CS.nil
              · have hno : ¬(c = '/' ∧ (rest.head? = some '*' ∨ rest.head? = some '/')) := by
                  rintro ⟨hc, hd | hd⟩
                  · exact hop ⟨hc, hd⟩
                  · exact hlc ⟨hc, hd⟩
                rw [scGo_code_emit none c rest hq hno]
                by_cases hc : c = '/'
                · subst hc
                  have hd1 : rest.head? ≠ some '*' := fun h => hno ⟨rfl, Or.inl h⟩
                  have hd2 : rest.head? ≠ some '/' := fun h => hno ⟨rfl, Or.inr h⟩
                  refine CS.slash _ ?_ ?_ ((ih rest hrest).1 false)
                  · rw [scGo_code_head rest hd2 hd1]; exact hd2
                  · rw [scGo_code_head rest hd2 hd1]; exact hd1
                · push_neg at hq
                  exact CS.chr c _ hq.1 hq.2 hc ((ih rest hrest).1 false)
      · intro q m
        by_cases hbs : c = '\\'
        · subst hbs
          cases rest with
          | nil =>
            have : scGo true (some q) m ['\\'] = (['\\'], m) := by simp [scGo]
            rw [this]
            exact InStr.bs q
          | cons d ys =>
            rw [scGo_str_esc (some q) m d ys]
            exact InStr.esc q d _ ((ih ys (by simp at hrest; omega)).2 q m)
        · by_cases hcq : c = q
          · subst hcq
            rw [scGo_str_close m c rest hbs]
            exact InStr.close c _ ((ih rest hrest).1 m)
          · rw [scGo_str_chr (some q) m c rest hbs (by simp [hcq])]
            exact InStr.chr q c _ hcq hbs ((ih rest hrest).2 q m)

/-- The first character of the string stripper's output is the input's
first character, a placeholder quote, or nothing. -/
theorem sslGo_none_head (rest : List Char) :
    (sslGo none rest).head? = none ∨ (sslGo none rest).head? = rest.head? ∨
      (sslGo none rest).head? = some '"' := by
  cases rest with
  | nil => exact Or.inl rfl
  | cons d ys =>
    by_cases hq : d = '"' ∨ d = '\''
    · rw [sslGo_cons_quote d ys hq]
      right; right; rfl
    · rw [sslGo_cons_chr d ys hq]
      right; left; rfl

/-- On a `CS` line the string stripper produces a `CFree` line; the
in-string statement carries the invariant that the stale `next_char`
flag is false only near the end of the line. -/
theorem cfAux : ∀ (n : Nat) (x : List Char), x.length ≤ n →
    (CS x → CFree (sslGo none x)) ∧
    (∀ q b, (q = '"' ∨ q = '\'') → InStr q x → (b = false → x.length ≤ 1) →
      CFree (sslGo (some (q, b)) x)) := by
  intro n
  induction n with
  | zero =>
    intro x hx
    have : x = [] := List.length_eq_zero.mp (Nat.le_zero.mp hx)
    subst this
    exact ⟨fun _ => CFree.nil, fun _ _ _ _ _ => CFree.nil⟩
  | succ n ih =>
    intro x hx
    constructor
    · intro hcs
      cases hcs with
      | nil => exact CFree.nil
      | chr c rest h1 h2 h3 hrest =>
        rw [sslGo_cons_chr c rest (by tauto)]
        exact CFree.chr c _ h1 h2 h3 ((ih rest (by simp at hx; omega)).1 hrest)
      | slash rest hh1 hh2 hrest =>
        rw [sslGo_cons_chr '/' rest (by decide)]
        have hhead := sslGo_none_head rest
        refine CFree.slash _ ?_ ?_ ((ih rest (by simp at hx; omega)).1 hrest)
        · rcases hhead with h | h | h <;> rw [h] <;> simp_all
        · rcases hhead with h | h | h <;> rw [h] <;> simp_all
      | str q rest hq hin =>
        rw [sslGo_cons_quote q rest hq]
        refine CFree.ph _ ((ih rest (by simp at hx; omega)).2 q _ hq hin ?_)
        intro hb
        have : rest.isEmpty = true := by
          cases hempty : rest.isEmpty
          · rw [hempty] at hb; simp at hb
          · rfl
        rw [List.isEmpty_iff] at this
        simp [this]
    · intro q b hq hin hb
      cases hin with
      | nil => exact CFree.nil
      | bs qq => simpa [sslGo] using CFree.nil
      | esc qq c rest hrest =>
        cases b with
        | false =>
          have := hb rfl
          simp at this
        | true =>
          rw [sslGo_skip_esc q c rest]
          refine (ih rest (by simp at hx; omega)).2 q _ hq hrest ?_
          intro hdec
          have := of_decide_eq_false hdec
          omega
      | chr qq c rest hne hnbs hrest =>
        rw [sslGo_skip_chr q c b rest hnbs hne]
        refine (ih rest (by simp at hx; omega)).2 q b hq hrest ?_
        intro h
        have := hb h
        simp only [List.length_cons] at this
        omega
      | close qq rest hcs =>
        have hqbs : q ≠ '\\' := by rcases hq with h | h <;> subst h <;> decide
        rw [sslGo_skip_close q b rest hqbs]
        exact (ih rest (by simp at hx; omega)).1 hcs

/-- The placeholder, decomposed for the traversal lemmas. -/
theorem placeholder_decomp (rest : List Char) :
    placeholder ++ rest = '"' :: ("STRING_LITERAL".data ++ ('"' :: rest)) := by
  have h : placeholder = '"' :: ("STRING_LITERAL".data ++ ['"']) := by decide
  rw [h]
  simp

/-- A `CFree` line is a fixed point of the comment stripper, with final
block-comment state `false`. -/
theorem cfree_scGo (z : List Char) (h : CFree z) :
    scGo false none false z = (z, false) := by
  induction h with
  | nil => rfl
  | chr c rest h1 h2 h3 _ ih =>
    rw [scGo_code_emit none c rest (by tauto) (by rintro ⟨hc, _⟩; exact h3 hc), ih]
  | slash rest hh1 hh2 _ ih =>
    rw [scGo_code_emit none '/' rest (by decide)
      (by rintro ⟨_, h | h⟩; exacts [hh2 h, hh1 h]), ih]
  | ph rest _ ih =>
    rw [placeholder_decomp rest, scGo_code_quote none false '"' _ (Or.inl rfl),
      scStrChars '"' false "STRING_LITERAL".data ('"' :: rest) (by decide),
      scGo_str_close false '"' rest (by decide), ih]

/-- A `CFree` line is a fixed point of the string stripper. -/
theorem cfree_sslGo (z : List Char) (h : CFree z) : sslGo none z = z := by
  induction h with
  | nil => rfl
  | chr c rest h1 h2 _ _ ih => rw [sslGo_cons_chr c rest (by tauto), ih]
  | slash rest _ _ _ ih => rw [sslGo_cons_chr '/' rest (by decide), ih]
  | ph rest _ ih =>
    rw [placeholder_decomp rest, sslGo_cons_quote '"' _ (Or.inl rfl),
      sslSkipChars '"' _ "STRING_LITERAL".data ('"' :: rest) (by decide),
      sslGo_skip_close '"' _ rest (by decide), ih]
    rw [placeholder_decomp rest]

/-- The comment stripper's output satisfies `CS`, from any entry state. -/
theorem cs_strip (l : List Char) (m : Bool) : CS (strip_comments_from_line l m).1 :=
  (csAux l.length l le_rfl).1 m

/-- The doubly stripped view of any raw line satisfies `CFree`. -/
theorem cfree_strip (l : List Char) (m : Bool) :
    CFree (strip_string_literals_from_line (strip_comments_from_line l m).1) :=
  (cfAux (strip_comments_from_line l m).1.length _ le_rfl).1 (cs_strip l m)

/-! ## Claim theorems -/

/--
C3: the claim says every line strictly between the opening and closing
lines of a block comment is fully masked.  The code contradicts this
(and its own purpose of stripping comments): the string-literal check of
`strip_comments_from_line` is not guarded by the in-comment flag, so the
apostrophe in `don't` inside the comment enters string state and the
rest of the comment line is emitted.  At the failing input
`["/*", "don't", "*/x"]` the middle line strips to `'t`, not to the
empty line.
-/
theorem C3_code_eval :
    strip_comments_from_lines ["/*".data, "don't".data, "*/x".data] =
      [[], "'t".data, "x".data] := by decide

/--
C5: an escaped quote inside a string literal never terminates the
literal early; the literal ends only on an unescaped occurrence of its
own opening quote.  For the comment stripper this is observable because
a `//` after the closing quote truncates the line exactly there; for the
string stripper because the whole literal (escaped quote included)
collapses into a single placeholder.  `a` and `b` range over arbitrary
escape-free, quote-free literal contents.
-/
theorem C5_escaped_quote (q : Char) (a b c2 : List Char)
    (hq : q = '"' ∨ q = '\'')
    (ha : ∀ x ∈ a, x ≠ '\\' ∧ x ≠ q)
    (hb : ∀ x ∈ b, x ≠ '\\' ∧ x ≠ q) :
    strip_comments_from_line
        (q :: (a ++ ('\\' :: q :: (b ++ (q :: '/' :: '/' :: c2))))) false =
      (q :: (a ++ ('\\' :: q :: (b ++ [q]))), false) ∧
    strip_string_literals_from_line (q :: (a ++ ('\\' :: q :: (b ++ (q :: c2))))) =
      placeholder ++ strip_string_literals_from_line c2 := by
  have hqbs : q ≠ '\\' := by rcases hq with h | h <;> subst h <;> decide
  constructor
  · show scGo false none false _ = _
    rw [scGo_code_quote none false q _ hq,
      scStrChars q false a ('\\' :: q :: (b ++ (q :: '/' :: '/' :: c2))) ha,
      scGo_str_esc (some q) false q (b ++ (q :: '/' :: '/' :: c2)),
      scStrChars q false b (q :: '/' :: '/' :: c2) hb,
      scGo_str_close false q ('/' :: '/' :: c2) hqbs,
      scGo_code_linecmt none c2]
  · show sslGo none _ = _
    rw [sslGo_cons_quote q _ hq]
    have hne : (a ++ ('\\' :: q :: (b ++ (q :: c2)))).isEmpty = false := by
      cases a <;> simp
    rw [hne]
    simp only [Bool.not_false]
    rw [sslSkipChars q true a ('\\' :: q :: (b ++ (q :: c2))) ha,
      sslGo_skip_esc q q (b ++ (q :: c2)),
      sslSkipChars q _ b (q :: c2) hb,
      sslGo_skip_close q _ c2 hqbs]
    rfl

/-- Witness for C5 at `"a\"b"//x` and `"a\"b" tail`. -/
theorem C5_escaped_quote_witness :
    strip_comments_from_line
        ('"' :: ("a".data ++ ('\\' :: '"' :: ("b".data ++ ('"' :: '/' :: '/' :: "x".data))))) false =
      ('"' :: ("a".data ++ ('\\' :: '"' :: ("b".data ++ ['"']))), false) ∧
    strip_string_literals_from_line
        ('"' :: ("a".data ++ ('\\' :: '"' :: ("b".data ++ ('"' :: " tail".data))))) =
      placeholder ++ strip_string_literals_from_line " tail".data :=
  C5_escaped_quote '"' "a".data "b".data " tail".data (Or.inl rfl)
    (by decide) (by decide)

/--
C7, counterexample: the claim says a single-quoted literal is replaced
by a single-quoted placeholder.  The code always emits the double-quoted
placeholder `"STRING_LITERAL"`: on input `'x'` the output contains no
single quote at all.
-/
theorem C7_counterexample :
    strip_string_literals_from_line "'x'".data = "\"STRING_LITERAL\"".data ∧
    ("\"STRING_LITERAL\"".data.all (fun c => c != '\'')) = true := by decide

/--
C7 as amended: every complete string literal (delimiters included) is
replaced by the fixed double-quoted placeholder `"STRING_LITERAL"`,
regardless of which quote character delimits the original literal.
-/
theorem C7_amended (q : Char) (a c2 : List Char)
    (hq : q = '"' ∨ q = '\'')
    (ha : ∀ x ∈ a, x ≠ '\\' ∧ x ≠ q) :
    strip_string_literals_from_line (q :: (a ++ (q :: c2))) =
      placeholder ++ strip_string_literals_from_line c2 := by
  have hqbs : q ≠ '\\' := by rcases hq with h | h <;> subst h <;> decide
  show sslGo none _ = _
  rw [sslGo_cons_quote q _ hq]
  have hne : (a ++ (q :: c2)).isEmpty = false := by cases a <;> simp
  rw [hne]
  simp only [Bool.not_false]
  rw [sslSkipChars q true a (q :: c2) ha, sslGo_skip_close q _ c2 hqbs]
  rfl

/-- Witness for the amended C7 at the single-quoted literal `'x'`. -/
theorem C7_amended_witness :
    strip_string_literals_from_line ('\'' :: ("x".data ++ ('\'' :: " y".data))) =
      placeholder ++ strip_string_literals_from_line " y".data :=
  C7_amended '\'' "x".data " y".data (Or.inr rfl) (by decide)

/--
C8: stripping is idempotent.  For any raw line and any initial
block-comment state, re-applying comment stripping (entered outside any
block comment) and string stripping to the doubly stripped line returns
it unchanged, and the block-comment state after re-stripping is `false`.
-/
theorem C8_idempotent (l : List Char) (m : Bool) :
    strip_comments_from_line
        (strip_string_literals_from_line (strip_comments_from_line l m).1) false =
      (strip_string_literals_from_line (strip_comments_from_line l m).1, false) ∧
    strip_string_literals_from_line
        (strip_string_literals_from_line (strip_comments_from_line l m).1) =
      strip_string_literals_from_line (strip_comments_from_line l m).1 :=
  ⟨cfree_scGo _ (cfree_strip l m), cfree_sslGo _ (cfree_strip l m)⟩

/-- Auxiliary: suppression patterns that all fail to match make the
engine's `any` test false. -/
theorem any_not_isEmpty_eq_false (mps : List (List Char → List Nat)) (clean : List Char)
    (hx : mps.all (fun mp => (mp clean).isEmpty) = true) :
    mps.any (fun mp => !(mp clean).isEmpty) = false := by
  rw [List.any_eq_false]
  intro mp hmp
  have := List.all_eq_true.mp hx mp hmp
  simp_all

/--
C1, counterexample: the claim says a marker with an empty reason is
still accepted as an exception.  At the concrete input where the line
above a `UIColor` use is exactly `// 6LAYER_ALLOW:` the scanner records
a Finding and no AllowedException, because the extracted reason strips
to the empty string, which the engine's truthiness test treats as "no
exception".
-/
theorem C1_counterexample :
    find_violations_in_file t1Catalog t2Catalog "App/Sources/V.swift".data
        (some ["// 6LAYER_ALLOW:".data, "let c = UIColor.red".data]) true false =
      ([{ file_path := "App/Sources/V.swift".data, line_number := 2,
          line_content := "let c = UIColor.red".data,
          violation_type := "UIColor".data, replacement := "Color.platform*".data,
          hint := "Use Color.platformBackground, Color.platformLabel, etc. instead of UIColor".data,
          priority := 1, column := 9 }], [], []) := by decide

/-- Auxiliary: when `pat` is a prefix of `l`, the first occurrence is at
position 0, so `afterFirst` drops exactly the pattern. -/
theorem afterFirst_of_isPrefixOf (pat l : List Char) (hp : pat ≠ [])
    (h : pat.isPrefixOf l = true) :
    afterFirst pat l = some (l.drop pat.length) := by
  cases l with
  | nil =>
    cases pat with
    | nil => exact absurd rfl hp
    | cons x xs => simp [List.isPrefixOf] at h
  | cons c rest =>
    unfold afterFirst
    simp [h]

/--
C1 as amended: a marker whose reason is empty or whitespace-only is not
treated as an exception, whether the marker sits inline on the match
line or on the line immediately above: `get_exception_reason` returns
the empty string, the engine records no AllowedException, and the
candidate proceeds through the remaining resolution steps to ordinary
Findings, for tier-1 and tier-2 rules alike.  The disjunctive premise
covers the two placements: the trimmed current line contains the marker
with whitespace-only text after its first occurrence, or the current
line has no marker and the trimmed previous line starts with the marker
followed by whitespace-only text.
-/
theorem C1_amended (lines linesWC : List (List Char)) (lineNum : Nat)
    (fp orig clean : List Char) (r1 r2 : Rule) (p1 p2 : Nat) (ps1 ps2 : List Nat)
    (hidx : lineNum - 1 < lines.length)
    (hmark :
      (∃ aft, afterFirst marker (trimChars (lines.getD (lineNum - 1) [])) = some aft ∧
        trimChars aft = []) ∨
      (afterFirst marker (trimChars (lines.getD (lineNum - 1) [])) = none ∧
        0 < lineNum - 1 ∧
        marker.isPrefixOf (trimChars (lines.getD (lineNum - 1 - 1) [])) = true ∧
        trimChars ((trimChars (lines.getD (lineNum - 1 - 1) [])).drop marker.length) = []))
    (h1 : r1.pattern clean = p1 :: ps1)
    (hx1 : r1.excludePatterns.all (fun mp => (mp clean).isEmpty) = true)
    (h2 : r2.pattern clean = p2 :: ps2)
    (hx2 : r2.excludePatterns.all (fun mp => (mp clean).isEmpty) = true)
    (hctx : contextOK r2 linesWC lineNum = true) :
    get_exception_reason lines (lineNum - 1) = [] ∧
    checkLineT1 fp r1 lines lineNum orig clean =
      ((p1 :: ps1).map (fun pos =>
        { file_path := fp, line_number := lineNum, line_content := rstripChars orig,
          violation_type := r1.name, replacement := r1.replacement, hint := r1.hint,
          priority := r1.priority, column := pos + 1 }), []) ∧
    checkLineT2 fp r2 lines linesWC lineNum orig clean =
      ([{ file_path := fp, line_number := lineNum, line_content := rstripChars orig,
          violation_type := r2.name, replacement := r2.replacement, hint := r2.hint,
          priority := r2.priority, column := p2 + 1 }], []) := by
  have hreason : get_exception_reason lines (lineNum - 1) = [] := by
    unfold get_exception_reason
    rw [if_pos hidx]
    rcases hmark with ⟨aft, ha, he⟩ | ⟨hnone, hpos, hpre, hemp⟩
    · simp only [ha, he]
    · have haft := afterFirst_of_isPrefixOf marker
        (trimChars (lines.getD (lineNum - 1 - 1) [])) (by decide) hpre
      rw [hnone, if_pos hpos, if_pos hpre, haft]
      exact hemp
  have hany1 := any_not_isEmpty_eq_false r1.excludePatterns clean hx1
  have hany2 := any_not_isEmpty_eq_false r2.excludePatterns clean hx2
  refine ⟨hreason, ?_, ?_⟩
  · unfold checkLineT1
    rw [h1]
    simp [hreason, hany1]
  · unfold checkLineT2
    rw [h2]
    simp [hreason, hany2, hctx]

/-- Witness for the amended C1: the marker sits inline at the end of the
match line with only whitespace after it; both the `UIColor` (tier-1)
match and the `TextField` (tier-2) match on that line still produce
Findings, at columns 9 and 22, and no exception is recorded. -/
theorem C1_amended_witness :
    get_exception_reason
        ["let c = UIColor.red; TextField( // 6LAYER_ALLOW:   ".data] 0 = [] ∧
    checkLineT1 "App/Sources/V.swift".data uicolorRule
        ["let c = UIColor.red; TextField( // 6LAYER_ALLOW:   ".data] 1
        "let c = UIColor.red; TextField( // 6LAYER_ALLOW:   ".data
        (strip_string_literals_from_line
          (strip_comments_from_line
            "let c = UIColor.red; TextField( // 6LAYER_ALLOW:   ".data false).1) =
      (((8 : Nat) :: []).map (fun pos =>
        { file_path := "App/Sources/V.swift".data, line_number := 1,
          line_content :=
            rstripChars "let c = UIColor.red; TextField( // 6LAYER_ALLOW:   ".data,
          violation_type := uicolorRule.name, replacement := uicolorRule.replacement,
          hint := uicolorRule.hint, priority := uicolorRule.priority,
          column := pos + 1 }), []) ∧
    checkLineT2 "App/Sources/V.swift".data textFieldRule
        ["let c = UIColor.red; TextField( // 6LAYER_ALLOW:   ".data] [] 1
        "let c = UIColor.red; TextField( // 6LAYER_ALLOW:   ".data
        (strip_string_literals_from_line
          (strip_comments_from_line
            "let c = UIColor.red; TextField( // 6LAYER_ALLOW:   ".data false).1) =
      ([{ file_path := "App/Sources/V.swift".data, line_number := 1,
          line_content :=
            rstripChars "let c = UIColor.red; TextField( // 6LAYER_ALLOW:   ".data,
          violation_type := textFieldRule.name,
          replacement := textFieldRule.replacement,
          hint := textFieldRule.hint, priority := textFieldRule.priority,
          column := 21 + 1 }], []) :=
  C1_amended ["let c = UIColor.red; TextField( // 6LAYER_ALLOW:   ".data] [] 1
    "App/Sources/V.swift".data
    "let c = UIColor.red; TextField( // 6LAYER_ALLOW:   ".data
    (strip_string_literals_from_line
      (strip_comments_from_line
        "let c = UIColor.red; TextField( // 6LAYER_ALLOW:   ".data false).1)
    uicolorRule textFieldRule 8 21 [] []
    (by decide) (Or.inl ⟨[], by decide, rfl⟩)
    (by decide) (by decide) (by decide) (by decide) (by decide)

/--
C2, counterexample: the claim says the exception check precedes the
library-code skip.  For an in-scope file under `Framework/` (scanned
with the framework toggle off), a tier-2 match carrying an exception
annotation on the previous line produces nothing at all — no
AllowedException — while the same file outside `Framework/` produces the
AllowedException; so the rule-level framework skip precedes the
exception check.
-/
theorem C2_counterexample :
    find_violations_in_file t1Catalog t2Catalog "App/Framework/V.swift".data
        (some ["// 6LAYER_ALLOW: legacy".data, "TextField(x)".data]) false false =
      ([], [], []) ∧
    find_violations_in_file t1Catalog t2Catalog "App/Sources/V.swift".data
        (some ["// 6LAYER_ALLOW: legacy".data, "TextField(x)".data]) false false =
      ([], [],
       [{ file_path := "App/Sources/V.swift".data, line_number := 2,
          line_content := "TextField(x)".data,
          violation_type := "TextField without platform replacement".data,
          reason := "legacy".data }]) := by decide

/--
C2 as amended: for a file whose path contains `Framework/`, a tier-2
rule marked skip-in-library is skipped for the whole file before any
per-line processing, so neither a Finding nor an AllowedException is
recorded for it — the library skip takes precedence over the exception
check.
-/
theorem C2_amended (fp : List Char) (r : Rule) (lines linesWC cleans : List (List Char))
    (hr : r.excludeInFramework = true)
    (hfp : containsSub "Framework/".data fp = true) :
    runRuleT2 fp r lines linesWC cleans = ([], []) := by
  unfold runRuleT2
  rw [hr, hfp]
  simp

/-- Witness for the amended C2 at the `TextField` rule on a
`Framework/` path with an annotated match line. -/
theorem C2_amended_witness :
    runRuleT2 "App/Framework/V.swift".data textFieldRule
        ["// 6LAYER_ALLOW: legacy".data, "TextField(x)".data]
        ["// 6LAYER_ALLOW: legacy".data, "TextField(x)".data]
        ["// 6LAYER_ALLOW: legacy".data, "TextField(x)".data] = ([], []) :=
  C2_amended "App/Framework/V.swift".data textFieldRule _ _ _ (by decide) (by decide)

/--
C4: on a clean line with no exception, suppression or context condition
in play, a tier-1 rule yields one Finding per `finditer` match, each at
its match's 1-based column, while a tier-2 rule yields exactly one
Finding at the first match's 1-based column.
-/
theorem C4_multiplicity (fp orig clean : List Char) (r1 r2 : Rule)
    (lines linesWC : List (List Char)) (lineNum p1 p2 : Nat) (ps1 ps2 : List Nat)
    (hre : get_exception_reason lines (lineNum - 1) = [])
    (h1 : r1.pattern clean = p1 :: ps1)
    (hx1 : r1.excludePatterns.all (fun mp => (mp clean).isEmpty) = true)
    (h2 : r2.pattern clean = p2 :: ps2)
    (hx2 : r2.excludePatterns.all (fun mp => (mp clean).isEmpty) = true)
    (hctx : contextOK r2 linesWC lineNum = true) :
    checkLineT1 fp r1 lines lineNum orig clean =
      ((p1 :: ps1).map (fun pos =>
        { file_path := fp, line_number := lineNum, line_content := rstripChars orig,
          violation_type := r1.name, replacement := r1.replacement, hint := r1.hint,
          priority := r1.priority, column := pos + 1 }), []) ∧
    checkLineT2 fp r2 lines linesWC lineNum orig clean =
      ([{ file_path := fp, line_number := lineNum, line_content := rstripChars orig,
          violation_type := r2.name, replacement := r2.replacement, hint := r2.hint,
          priority := r2.priority, column := p2 + 1 }], []) := by
  have hany1 := any_not_isEmpty_eq_false r1.excludePatterns clean hx1
  have hany2 := any_not_isEmpty_eq_false r2.excludePatterns clean hx2
  constructor
  · unfold checkLineT1
    rw [h1]
    simp [hre, hany1]
  · unfold checkLineT2
    rw [h2]
    simp [hre, hany2, hctx]

/-- Witness for C4 on a line matching `UIColor` twice (columns 1 and 11)
and `TextField\s*(` twice (tier 2 keeps only the first, column 19). -/
theorem C4_multiplicity_witness :
    checkLineT1 "App/V.swift".data uicolorRule [] 1 "o".data
        "UIColor x UIColor TextField( TextField(".data =
      (((0 : Nat) :: [10]).map (fun pos =>
        { file_path := "App/V.swift".data, line_number := 1,
          line_content := rstripChars "o".data,
          violation_type := uicolorRule.name, replacement := uicolorRule.replacement,
          hint := uicolorRule.hint, priority := uicolorRule.priority,
          column := pos + 1 }), []) ∧
    checkLineT2 "App/V.swift".data textFieldRule [] [] 1 "o".data
        "UIColor x UIColor TextField( TextField(".data =
      ([{ file_path := "App/V.swift".data, line_number := 1,
          line_content := rstripChars "o".data,
          violation_type := textFieldRule.name,
          replacement := textFieldRule.replacement,
          hint := textFieldRule.hint, priority := textFieldRule.priority,
          column := 18 + 1 }], []) :=
  C4_multiplicity "App/V.swift".data "o".data
    "UIColor x UIColor TextField( TextField(".data uicolorRule textFieldRule
    [] [] 1 0 18 [10] [29]
    (by decide) (by decide) (by decide) (by decide) (by decide) (by decide)

/--
C6, counterexample: the claim says the required context is searched in a
window of N lines above and N lines below the match.  The code searches
the slice `[line_num-10 : line_num+10]` of the 0-based comment-stripped
lines, i.e. 9 lines above through 10 lines below: with the match on
1-based line 11, a context exactly 10 lines above is missed (candidate
silently discarded) while a context exactly 10 lines below is found
(Finding recorded) — no symmetric window N behaves this way.
-/
theorem C6_counterexample :
    find_violations_in_file [] [ctxRule] "App/Sources/V.swift".data
        (some ctxLinesAbove) true false = ([], [], []) ∧
    (find_violations_in_file [] [ctxRule] "App/Sources/V.swift".data
        (some ctxLinesBelow) true false).1 =
      [{ file_path := "App/Sources/V.swift".data, line_number := 11,
         line_content := "VStack \x7b".data, violation_type := "ctx demo".data,
         replacement := "r".data, hint := "h".data, priority := 2,
         column := 1 }] := by decide

/--
C6 as amended: a tier-2 rule's required context is searched in the
concatenation of the comment-stripped (string-unstripped) lines with
0-based indices from `line_num - 10` (clamped at 0) up to but excluding
`min(length, line_num + 10)` — up to 9 lines above and 10 lines below
the 1-based match line — and a candidate whose window lacks the context
is silently discarded: no Finding and no AllowedException.
-/
theorem C6_amended (fp orig clean : List Char) (r : Rule)
    (cp : List Char → List Nat) (lines linesWC : List (List Char)) (lineNum : Nat)
    (hrc : r.requiresContext = true)
    (hcp : r.contextPattern = some cp)
    (hnp : (r.pattern clean).isEmpty = false)
    (hre : get_exception_reason lines (lineNum - 1) = [])
    (hx : r.excludePatterns.all (fun mp => (mp clean).isEmpty) = true)
    (hmiss : cp (contextWindow linesWC lineNum) = []) :
    checkLineT2 fp r lines linesWC lineNum orig clean = ([], []) := by
  have hany := any_not_isEmpty_eq_false r.excludePatterns clean hx
  have hctx : contextOK r linesWC lineNum = false := by
    unfold contextOK
    rw [hrc, hcp]
    simp [hmiss]
  unfold checkLineT2
  simp [hnp, hre, hany, hctx]

/-- Witness for the amended C6: the context sits exactly 10 lines above
the match and the candidate is discarded. -/
theorem C6_amended_witness :
    checkLineT2 "App/Sources/V.swift".data ctxRule ctxLinesAbove ctxLinesAbove 11
        "VStack \x7b".data "VStack \x7b".data = ([], []) :=
  C6_amended "App/Sources/V.swift".data "VStack \x7b".data "VStack \x7b".data ctxRule
    (subMatches "List".data) ctxLinesAbove ctxLinesAbove 11
    (by decide) rfl (by decide) (by decide) (by decide) (by decide)

/-- One unfolding step of `scan_directory`. -/
theorem scan_directory_cons (t1 t2 : List Rule)
    (f : List Char × Option (List (List Char)))
    (fs : List (List Char × Option (List (List Char)))) (ef et : Bool) :
    scan_directory t1 t2 (f :: fs) ef et =
      ((find_violations_in_file t1 t2 f.1 f.2 ef et).1 ++
         (scan_directory t1 t2 fs ef et).1,
       (find_violations_in_file t1 t2 f.1 f.2 ef et).2.1 ++
         (scan_directory t1 t2 fs ef et).2.1,
       (find_violations_in_file t1 t2 f.1 f.2 ef et).2.2 ++
         (scan_directory t1 t2 fs ef et).2.2) := rfl

/--
C9: an in-scope file whose contents cannot be read contributes no
Finding, no AllowedException and no Exclusion, and removing it from a
scan leaves every other file's results unchanged (the failure is
isolated and non-fatal).
-/
theorem C9_unreadable (t1 t2 : List Rule) (fp : List Char) (ef et : Bool)
    (h : (is_app_code_with_reason fp ef et).1 = true)
    (as bs : List (List Char × Option (List (List Char)))) :
    find_violations_in_file t1 t2 fp none ef et = ([], [], []) ∧
    scan_directory t1 t2 (as ++ (fp, none) :: bs) ef et =
      scan_directory t1 t2 (as ++ bs) ef et := by
  have h1 : find_violations_in_file t1 t2 fp none ef et = ([], [], []) := by
    unfold find_violations_in_file
    simp [h]
  refine ⟨h1, ?_⟩
  induction as with
  | nil =>
    simp only [List.nil_append, scan_directory_cons, h1]
  | cons a as ih =>
    simp only [List.cons_append, scan_directory_cons, ih]

/-- Witness for C9: dropping the unreadable file leaves the sibling
file's scan results unchanged. -/
theorem C9_unreadable_witness :
    find_violations_in_file t1Catalog t2Catalog "App/U.swift".data none true false =
      ([], [], []) ∧
    scan_directory t1Catalog t2Catalog
        ([("App/A.swift".data, some ["let c = UIColor.red".data])] ++
          ("App/U.swift".data, none) :: []) true false =
      scan_directory t1Catalog t2Catalog
        ([("App/A.swift".data, some ["let c = UIColor.red".data])] ++ []) true false :=
  C9_unreadable t1Catalog t2Catalog "App/U.swift".data true false (by decide)
    [("App/A.swift".data, some ["let c = UIColor.red".data])] []

/--
C10, counterexample: the implicit claim says every line whose raw text
contains the marker anywhere has all its rule matches recorded as
AllowedExceptions.  At the concrete input where the marker ends the line
with nothing after it, the extracted reason strips to empty, so the
`UIColor` match is recorded as a Finding and no exception is recorded.
-/
theorem C10_counterexample :
    find_violations_in_file t1Catalog t2Catalog "App/Sources/V.swift".data
        (some ["let c = UIColor.red // 6LAYER_ALLOW:".data]) true false =
      ([{ file_path := "App/Sources/V.swift".data, line_number := 1,
          line_content := "let c = UIColor.red // 6LAYER_ALLOW:".data,
          violation_type := "UIColor".data, replacement := "Color.platform*".data,
          hint := "Use Color.platformBackground, Color.platformLabel, etc. instead of UIColor".data,
          priority := 1, column := 9 }], [], []) := by decide

/--
C10 as amended: the inline check accepts the marker as a substring
anywhere in the raw (trimmed) current line, including inside a string
literal, and — provided the text after the first occurrence does not
strip to the empty string — every rule whose pattern matches the clean
line is recorded as an AllowedException (no Finding), with the reason
being that stripped text.
-/
theorem C10_amended (lines : List (List Char)) (lineNum : Nat) (aft : List Char)
    (fp orig clean : List Char) (r1 r2 : Rule) (linesWC : List (List Char))
    (hidx : lineNum - 1 < lines.length)
    (haft : afterFirst marker (trimChars (lines.getD (lineNum - 1) [])) = some aft)
    (hne : trimChars aft ≠ [])
    (hp1 : (r1.pattern clean).isEmpty = false)
    (hp2 : (r2.pattern clean).isEmpty = false) :
    get_exception_reason lines (lineNum - 1) = trimChars aft ∧
    checkLineT1 fp r1 lines lineNum orig clean =
      ([], [{ file_path := fp, line_number := lineNum,
              line_content := rstripChars orig,
              violation_type := r1.name, reason := trimChars aft }]) ∧
    checkLineT2 fp r2 lines linesWC lineNum orig clean =
      ([], [{ file_path := fp, line_number := lineNum,
              line_content := rstripChars orig,
              violation_type := r2.name, reason := trimChars aft }]) := by
  have hr : get_exception_reason lines (lineNum - 1) = trimChars aft := by
    unfold get_exception_reason
    rw [if_pos hidx]
    simp only [haft]
  refine ⟨hr, ?_, ?_⟩
  · unfold checkLineT1
    simp [hp1, hr, hne]
  · unfold checkLineT2
    simp [hp2, hr, hne]

/-- Witness for the amended C10: the marker sits inside a string literal
of the match line, and both the tier-1 and tier-2 matches on that line
are recorded as AllowedExceptions with reason `ok"`. -/
theorem C10_amended_witness :
    get_exception_reason
        ["let c = UIColor.red; TextField(x); s = \"// 6LAYER_ALLOW: ok\"".data] 0 =
      trimChars " ok\"".data ∧
    checkLineT1 "App/Sources/V.swift".data uicolorRule
        ["let c = UIColor.red; TextField(x); s = \"// 6LAYER_ALLOW: ok\"".data] 1
        "let c = UIColor.red; TextField(x); s = \"// 6LAYER_ALLOW: ok\"".data
        (strip_string_literals_from_line
          (strip_comments_from_line
            "let c = UIColor.red; TextField(x); s = \"// 6LAYER_ALLOW: ok\"".data
            false).1) =
      ([], [{ file_path := "App/Sources/V.swift".data, line_number := 1,
              line_content :=
                rstripChars
                  "let c = UIColor.red; TextField(x); s = \"// 6LAYER_ALLOW: ok\"".data,
              violation_type := uicolorRule.name,
              reason := trimChars " ok\"".data }]) ∧
    checkLineT2 "App/Sources/V.swift".data textFieldRule
        ["let c = UIColor.red; TextField(x); s = \"// 6LAYER_ALLOW: ok\"".data] [] 1
        "let c = UIColor.red; TextField(x); s = \"// 6LAYER_ALLOW: ok\"".data
        (strip_string_literals_from_line
          (strip_comments_from_line
            "let c = UIColor.red; TextField(x); s = \"// 6LAYER_ALLOW: ok\"".data
            false).1) =
      ([], [{ file_path := "App/Sources/V.swift".data, line_number := 1,
              line_content :=
                rstripChars
                  "let c = UIColor.red; TextField(x); s = \"// 6LAYER_ALLOW: ok\"".data,
              violation_type := textFieldRule.name,
              reason := trimChars " ok\"".data }]) :=
  C10_amended
    ["let c = UIColor.red; TextField(x); s = \"// 6LAYER_ALLOW: ok\"".data] 1
    " ok\"".data "App/Sources/V.swift".data
    "let c = UIColor.red; TextField(x); s = \"// 6LAYER_ALLOW: ok\"".data
    (strip_string_literals_from_line
      (strip_comments_from_line
        "let c = UIColor.red; TextField(x); s = \"// 6LAYER_ALLOW: ok\"".data
        false).1)
    uicolorRule textFieldRule []
    (by decide) (by decide) (by decide) (by decide) (by decide)

end SixLayer
